import Mathlib

/-!
# Verification of the lifting-diary data/mutation core

Shallow embedding of the repository's data-access and mutation layer:
the four-table storage model (`src/db/schema.ts`), the read layer
(`src/data/workouts.ts`, `src/data/exercises.ts`) and the mutation
server actions (`src/app/actions/workouts.ts`).

Modelling conventions:
* Timestamps and `Date` values are milliseconds since the epoch (`Nat`).
* Row identifiers are `Nat`; `serial` columns are modelled with explicit
  `next…Id` counters in the database state.
* SQL `NULL` is `Option.none`; the SQL predicate `eq(col, v)` on a nullable
  column is `col == some v` (three-valued logic: `NULL = v` is not true).
* A `select … orderBy k` returns the filtered rows sorted by `k`
  (`List.insertionSort`); rows are stored in insertion order.
* The driver serializes a submitted `weight` number with `toString` and the
  `real` column stores the number it denotes; on the integer-valued weights
  modelled here this round-trip is the identity, so rows store the
  submitted number itself.
* Fallible operations return `Except String …` mirroring the
  `{ success: false, error }` branches of the server actions.
-/

/-- One submitted set inside `CreateWorkoutData.exercises[i].sets`
(`src/data/workouts.ts`). -/
structure SetInput where
  setNumber : Nat
  reps : Nat
  weight : Option Nat
  rir : Option Nat
deriving Repr, DecidableEq

/-- One submitted exercise entry inside `CreateWorkoutData.exercises`. -/
structure ExerciseEntryInput where
  exerciseId : Nat
  order : Nat
  sets : List SetInput
deriving Repr, DecidableEq

/-- The type `CreateWorkoutData` from `src/data/workouts.ts`. -/
structure CreateWorkoutData where
  name : Option String
  date : Nat
  exercises : List ExerciseEntryInput
deriving Repr, DecidableEq

/-- The type `CreateExerciseData` from `src/data/exercises.ts`. -/
structure CreateExerciseData where
  name : String
  category : Option String
deriving Repr, DecidableEq

/-- Input of the `updateWorkout` server action (`updateWorkoutSchema` in
`src/app/actions/workouts.ts`).  The outer `Option` is field presence
(`undefined` = absent); the inner `Option` of `name`/`completedAt` is an
explicitly supplied `null`.  `startedAt` is `optional` but not `nullable`
in the Zod schema, and a `Date` is always truthy, so its presence test
`validatedInput.startedAt &&` coincides with `≠ undefined`. -/
structure UpdateWorkoutInput where
  workoutId : Nat
  name : Option (Option String)
  startedAt : Option Nat
  completedAt : Option (Option Nat)
deriving Repr, DecidableEq

/-- A row of the `exercises` table (`src/db/schema.ts`): `userId` is
nullable (`none` = global exercise); `name` is required.  `category` is
the column written by `createExercise` in `src/data/exercises.ts`.
Timestamp bookkeeping columns are never read by the modelled code and are
omitted. -/
structure ExerciseRow where
  id : Nat
  userId : Option String
  name : String
  category : Option String
deriving Repr, DecidableEq

/-- A row of the `workouts` table.  Carries the columns touched by the
modelled operations: the data layer writes `name`, `date`, `isTemplate`;
the server actions write `name`, `startedAt`, `completedAt`, `updatedAt`. -/
structure WorkoutRow where
  id : Nat
  userId : String
  name : Option String
  date : Nat
  isTemplate : Bool
  startedAt : Nat
  completedAt : Option Nat
  updatedAt : Nat
deriving Repr, DecidableEq

/-- A row of the `workout_exercises` table.  The optional
`targetSets`/`targetReps`/`targetWeight` columns are never written or read
by the modelled code and are omitted. -/
structure WorkoutExerciseRow where
  id : Nat
  workoutId : Nat
  exerciseId : Nat
  order : Nat
deriving Repr, DecidableEq

/-- A row of the `sets` table.  The tempo/flag/timestamp columns are never
written or read by the modelled code and are omitted. -/
structure SetRow where
  id : Nat
  workoutExerciseId : Nat
  setNumber : Nat
  reps : Nat
  weight : Option Nat
  rir : Option Nat
deriving Repr, DecidableEq

/-- The database state: the four tables (rows in insertion order) and the
`serial` counters. -/
structure DBState where
  exercises : List ExerciseRow
  workouts : List WorkoutRow
  workoutExercises : List WorkoutExerciseRow
  sets : List SetRow
  nextExerciseId : Nat
  nextWorkoutId : Nat
  nextWorkoutExerciseId : Nat
  nextSetId : Nat
deriving Repr, DecidableEq

/-- Milliseconds per day. -/
def msPerDay : Nat := 86400000

/-- JS `new Date(date); d.setHours(0,0,0,0)` — midnight of the day of `t`. -/
def startOfDayMs (t : Nat) : Nat := t - t % msPerDay

/-- JS `new Date(date); d.setHours(23,59,59,999)` — last millisecond of the
day of `t`. -/
def endOfDayMs (t : Nat) : Nat := startOfDayMs t + (msPerDay - 1)

/-- Embedding of `getWorkoutByIdAndUserId` (`src/data/workouts.ts`): select from
`workouts` where `userId = u AND id = workoutId`, then `result[0] ?? null`. -/
def getWorkoutByIdAndUserId (userId : String) (workoutId : Nat) (st : DBState) :
    Option WorkoutRow :=
  (st.workouts.filter (fun w => w.userId == userId && w.id == workoutId)).head?

/-- The record produced for one row of the `sets` select inside
`getWorkoutsByUserIdAndDate`. -/
structure SetView where
  id : Nat
  setNumber : Nat
  reps : Nat
  weight : Option Nat
  rir : Option Nat
deriving Repr, DecidableEq

/-- The record produced for one joined `workout_exercises ⋈ exercises` row
inside `getWorkoutsByUserIdAndDate`. -/
structure JoinedExerciseRow where
  id : Nat
  order : Nat
  exerciseId : Nat
  exerciseName : String
  exerciseCategory : Option String
deriving Repr, DecidableEq

/-- One entry of the `exercises` list returned by
`getWorkoutsByUserIdAndDate`. -/
structure ExerciseView where
  id : Nat
  exerciseId : Nat
  exerciseName : String
  exerciseCategory : Option String
  order : Nat
  sets : List SetView
deriving Repr, DecidableEq

/-- One workout returned by `getWorkoutsByUserIdAndDate`. -/
structure WorkoutView where
  id : Nat
  name : Option String
  date : Nat
  exercises : List ExerciseView
deriving Repr, DecidableEq

/-- The inner `sets` select of `getWorkoutsByUserIdAndDate`: rows with
`workoutExerciseId = weid`, ordered by `setNumber` ascending. -/
def setViewsFor (st : DBState) (weid : Nat) : List SetView :=
  (List.insertionSort (fun a b => a.setNumber ≤ b.setNumber)
      (st.sets.filter (fun s => s.workoutExerciseId == weid))).map
    (fun s => ⟨s.id, s.setNumber, s.reps, s.weight, s.rir⟩)

/-- The `workout_exercises` select of `getWorkoutsByUserIdAndDate`:
inner join with `exercises` on `workoutExercises.exerciseId = exercises.id`,
restricted to `workoutId = wid` (one output row per matching pair). -/
def joinedExercisesFor (st : DBState) (wid : Nat) : List JoinedExerciseRow :=
  (st.workoutExercises.filter (fun we => we.workoutId == wid)).flatMap
    (fun we =>
      (st.exercises.filter (fun ex => we.exerciseId == ex.id)).map
        (fun ex => ⟨we.id, we.order, ex.id, ex.name, ex.category⟩))

/-- The per-workout detail assembly of `getWorkoutsByUserIdAndDate`: joined
exercise rows ordered by `order` ascending, each with its sets. -/
def exerciseViewsFor (st : DBState) (wid : Nat) : List ExerciseView :=
  (List.insertionSort (fun a b => a.order ≤ b.order)
      (joinedExercisesFor st wid)).map
    (fun j => ⟨j.id, j.exerciseId, j.exerciseName, j.exerciseCategory, j.order,
      setViewsFor st j.id⟩)

/-- Embedding of `getWorkoutsByUserIdAndDate` (`src/data/workouts.ts`): workouts of
`userId` on the day of `date` (`userId = u AND isTemplate = false AND
date ≥ startOfDay AND date < endOfDay`), ordered by `date` descending,
each with its exercises and sets. -/
def getWorkoutsByUserIdAndDate (userId : String) (date : Nat) (st : DBState) :
    List WorkoutView :=
  (List.insertionSort (fun a b => b.date ≤ a.date)
      (st.workouts.filter (fun w =>
        w.userId == userId && w.isTemplate == false &&
        decide (startOfDayMs date ≤ w.date) && decide (w.date < endOfDayMs date)))).map
    (fun w => ⟨w.id, w.name, w.date, exerciseViewsFor st w.id⟩)

/-- Embedding of `getExercisesByUserId` (`src/data/exercises.ts`): select from
`exercises` where `userId = u` (SQL equality: a `NULL` owner never
matches), ordered by `name` ascending. -/
def getExercisesByUserId (userId : String) (st : DBState) : List ExerciseRow :=
  List.insertionSort (fun a b => a.name ≤ b.name)
    (st.exercises.filter (fun ex => ex.userId == some userId))

/-- The bulk `db.insert(sets).values(…)` of `createWorkout`: one row per
submitted set, each drawing a fresh serial id. -/
def insertSets (weid : Nat) (ss : List SetInput) (st : DBState) : DBState :=
  match ss with
  | [] => st
  | s :: rest =>
      insertSets weid rest
        { st with
          sets := st.sets ++ [⟨st.nextSetId, weid, s.setNumber, s.reps, s.weight, s.rir⟩],
          nextSetId := st.nextSetId + 1 }

/-- The `for (const exercise of data.exercises)` loop of `createWorkout`:
insert a `workout_exercises` row, then its sets (the `length > 0` guard of
the source is a no-op here since inserting an empty list changes nothing). -/
def insertWorkoutExercises (wid : Nat) (es : List ExerciseEntryInput) (st : DBState) :
    DBState :=
  match es with
  | [] => st
  | e :: rest =>
      let weid := st.nextWorkoutExerciseId
      let st := { st with
        workoutExercises := st.workoutExercises ++ [⟨weid, wid, e.exerciseId, e.order⟩],
        nextWorkoutExerciseId := weid + 1 }
      insertWorkoutExercises wid rest (insertSets weid e.sets st)

/-- Embedding of `createWorkout` (`src/data/workouts.ts`): insert the workout row
(owned by `userId`, `isTemplate = false`), then each exercise entry with
its sets.  The source runs the inserts sequentially with no transaction. -/
def createWorkout (userId : String) (data : CreateWorkoutData) (now : Nat)
    (st : DBState) : WorkoutRow × DBState :=
  let w : WorkoutRow :=
    ⟨st.nextWorkoutId, userId, data.name, data.date, false, now, none, now⟩
  let st := { st with
    workouts := st.workouts ++ [w],
    nextWorkoutId := st.nextWorkoutId + 1 }
  (w, insertWorkoutExercises w.id data.exercises st)

/-- The `for` loop of `createWorkout` when one insert statement throws:
`fuel` counts the insert statements that succeed before the failing one;
everything already inserted stays (no transaction in the source), and the
exception aborts the rest of the loop. -/
def insertWorkoutExercisesAborted (wid : Nat) (es : List ExerciseEntryInput)
    (fuel : Nat) (st : DBState) : DBState :=
  match es, fuel with
  | [], _ => st
  | _ :: _, 0 => st
  | e :: rest, fuel + 1 =>
      let weid := st.nextWorkoutExerciseId
      let st := { st with
        workoutExercises := st.workoutExercises ++ [⟨weid, wid, e.exerciseId, e.order⟩],
        nextWorkoutExerciseId := weid + 1 }
      if e.sets.isEmpty then
        insertWorkoutExercisesAborted wid rest fuel st
      else
        match fuel with
        | 0 => st
        | fuel + 1 => insertWorkoutExercisesAborted wid rest fuel (insertSets weid e.sets st)

/-- Embedding of `createWorkout` when the `fuel + 1`-st insert statement fails: the
statements already awaited are committed individually (the source wraps
nothing in a transaction), the thrown error propagates, and the state
keeps every row inserted before the failure.  `fuel = 0` means the initial
workout insert itself fails. -/
def createWorkoutAborted (userId : String) (data : CreateWorkoutData) (now : Nat)
    (fuel : Nat) (st : DBState) : DBState :=
  match fuel with
  | 0 => st
  | fuel + 1 =>
      let w : WorkoutRow :=
        ⟨st.nextWorkoutId, userId, data.name, data.date, false, now, none, now⟩
      let st := { st with
        workouts := st.workouts ++ [w],
        nextWorkoutId := st.nextWorkoutId + 1 }
      insertWorkoutExercisesAborted w.id data.exercises fuel st

/-- Embedding of `createExercise` (`src/data/exercises.ts`): insert an `exercises` row
owned by `userId`.  The insert hits the unique index
`user_exercise_name_idx` on `(user_id, name)` (`src/db/schema.ts`): it
fails when a row with the same owner and name already exists (SQL `UNIQUE`
treats `NULL` owners as distinct, and `createExercise` always inserts a
non-null owner). -/
def createExercise (userId : String) (data : CreateExerciseData) (st : DBState) :
    Except String ExerciseRow × DBState :=
  if st.exercises.any (fun ex => ex.userId == some userId && ex.name == data.name) then
    (.error "duplicate key value violates unique constraint", st)
  else
    let ex : ExerciseRow := ⟨st.nextExerciseId, some userId, data.name, data.category⟩
    (.ok ex,
      { st with
        exercises := st.exercises ++ [ex],
        nextExerciseId := st.nextExerciseId + 1 })

/-- A storage-level `DELETE FROM exercises WHERE id = exerciseId`,
honoring the `onDelete: 'restrict'` declared on
`workoutExercises.exerciseId` in `src/db/schema.ts`: the delete is
rejected, leaving the state unchanged, while any `workout_exercises` row
references the exercise. -/
def deleteExerciseRow (exerciseId : Nat) (st : DBState) :
    Except String Unit × DBState :=
  if st.workoutExercises.any (fun we => we.exerciseId == exerciseId) then
    (.error "update or delete violates foreign key constraint", st)
  else
    (.ok (), { st with exercises := st.exercises.filter (fun ex => !(ex.id == exerciseId)) })

/-- Embedding of `deleteWorkout` (`src/app/actions/workouts.ts`): delete from
`workouts` where `id = workoutId AND userId = u`; the declared cascades
(`src/db/schema.ts`) remove the `workout_exercises` rows of the deleted
workouts and the `sets` rows of those workout-exercises.  The action has
no `.returning()` and returns `{ success: true }` whether or not any row
matched. -/
def deleteWorkout (userId : String) (workoutId : Nat) (st : DBState) :
    Except String Unit × DBState :=
  let gone := fun (w : WorkoutRow) => w.id == workoutId && w.userId == userId
  let removedWorkoutIds := (st.workouts.filter gone).map (fun w => w.id)
  let removedWeIds :=
    (st.workoutExercises.filter (fun we => removedWorkoutIds.contains we.workoutId)).map
      (fun we => we.id)
  (.ok (),
    { st with
      workouts := st.workouts.filter (fun w => !gone w),
      workoutExercises :=
        st.workoutExercises.filter (fun we => !removedWorkoutIds.contains we.workoutId),
      sets := st.sets.filter (fun s => !removedWeIds.contains s.workoutExerciseId) })

/-- Embedding of `completeWorkout` (`src/app/actions/workouts.ts`): update `workouts`
set `completedAt = now, updatedAt = now` where `id = workoutId AND
userId = u`, unconditionally on the previous `completedAt`; `.returning()`
yields the updated rows and the action reports
`'Workout not found or unauthorized'` when none was. -/
def completeWorkout (userId : String) (workoutId : Nat) (now : Nat) (st : DBState) :
    Except String WorkoutRow × DBState :=
  let hit := fun (w : WorkoutRow) => w.id == workoutId && w.userId == userId
  let stamp := fun (w : WorkoutRow) => { w with completedAt := some now, updatedAt := now }
  (match (st.workouts.filter hit).head? with
    | none => .error "Workout not found or unauthorized"
    | some w => .ok (stamp w),
    { st with workouts := st.workouts.map (fun w => if hit w then stamp w else w) })

/-- Embedding of `updateWorkout` (`src/app/actions/workouts.ts`): update `workouts`
where `id = workoutId AND userId = u`, setting only the supplied fields —
`name` when `≠ undefined` (a supplied `null` clears it), `startedAt` when
truthy, `completedAt` when `≠ undefined` (a supplied `null` clears it) —
and always `updatedAt = now`; `.returning()` yields the updated rows and
the action reports `'Workout not found or unauthorized'` when none was. -/
def updateWorkout (userId : String) (inp : UpdateWorkoutInput) (now : Nat)
    (st : DBState) : Except String WorkoutRow × DBState :=
  let hit := fun (w : WorkoutRow) => w.id == inp.workoutId && w.userId == userId
  let apply := fun (w : WorkoutRow) =>
    { w with
      name := match inp.name with | some v => v | none => w.name,
      startedAt := match inp.startedAt with | some v => v | none => w.startedAt,
      completedAt := match inp.completedAt with | some v => v | none => w.completedAt,
      updatedAt := now }
  (match (st.workouts.filter hit).head? with
    | none => .error "Workout not found or unauthorized"
    | some w => .ok (apply w),
    { st with workouts := st.workouts.map (fun w => if hit w then apply w else w) })

/-- Well-formedness of a database state: `serial` ids already handed out
are below the counters, ids are distinct per table, and foreign keys point
below the parent counters. -/
structure WellFormed (st : DBState) : Prop where
  workoutIdsNodup : (st.workouts.map (fun w => w.id)).Nodup
  exerciseIdsNodup : (st.exercises.map (fun ex => ex.id)).Nodup
  workoutIdsLt : ∀ w ∈ st.workouts, w.id < st.nextWorkoutId
  weWorkoutIdsLt : ∀ we ∈ st.workoutExercises, we.workoutId < st.nextWorkoutId
  weIdsLt : ∀ we ∈ st.workoutExercises, we.id < st.nextWorkoutExerciseId
  setWeIdsLt : ∀ s ∈ st.sets, s.workoutExerciseId < st.nextWorkoutExerciseId

/-! ## Helper lemmas -/

/-- In a table whose ids are distinct, a filter that pins the id of a row
`w` of the table, and holds at `w`, returns exactly `[w]`. -/
theorem filter_pin_id_eq_single (p : WorkoutRow → Bool) (l : List WorkoutRow)
    (w : WorkoutRow) (hnodup : (l.map (fun v => v.id)).Nodup) (hw : w ∈ l)
    (hpw : p w = true) (hpin : ∀ v, p v = true → v.id = w.id) :
    l.filter p = [w] := by
  induction l with
  | nil => exact absurd hw (List.not_mem_nil w)
  | cons a l ih =>
      rw [List.map_cons, List.nodup_cons] at hnodup
      rcases List.mem_cons.mp hw with h | h
      · subst h
        have hrest : l.filter p = [] := by
          refine List.filter_eq_nil_iff.mpr (fun v hv hpv => ?_)
          exact hnodup.1 (hpin v hpv ▸ List.mem_map_of_mem (fun x => x.id) hv)
        simp [List.filter_cons, hpw, hrest]
      · have hne : p a = false := by
          by_contra hpa
          have hpa : p a = true := by revert hpa; cases p a <;> simp
          have : a.id = w.id := hpin a hpa
          exact hnodup.1 (this ▸ List.mem_map_of_mem (fun x => x.id) h)
        simp [List.filter_cons, hne, ih hnodup.2 h]

/-- Mapping a function that fixes every element of a list leaves the list
unchanged. -/
theorem map_eq_self_of_fix {α : Type} (f : α → α) (l : List α)
    (h : ∀ a ∈ l, f a = a) : l.map f = l := by
  induction l with
  | nil => rfl
  | cons a l ih =>
      rw [List.map_cons, h a (List.mem_cons_self a l),
        ih (fun b hb => h b (List.mem_cons_of_mem a hb))]

/-! ## C10 -/

/-- C10: `getExercisesByUserId u` returns only exercise rows whose owner is
exactly `u`; rows with a `NULL` owner (global exercises) never appear in
the result. -/
theorem getExercisesByUserId_owner_only (u : String) (st : DBState) :
    (∀ ex ∈ getExercisesByUserId u st, ex.userId = some u) ∧
    (∀ ex ∈ st.exercises, ex.userId = none → ex ∉ getExercisesByUserId u st) := by
  constructor
  · intro ex hex
    rw [getExercisesByUserId] at hex
    have hmem : ex ∈ st.exercises.filter (fun x => x.userId == some u) :=
      (List.mem_insertionSort (fun a b => a.name ≤ b.name)).mp hex
    have := List.of_mem_filter hmem
    simpa using this
  · intro ex _ hnone hmem
    rw [getExercisesByUserId] at hmem
    have hmem' : ex ∈ st.exercises.filter (fun x => x.userId == some u) :=
      (List.mem_insertionSort (fun a b => a.name ≤ b.name)).mp hmem
    have := List.of_mem_filter hmem'
    rw [hnone] at this
    simp at this

/-- Sample database state: Alice owns workout 1 (one exercise, one set);
exercise 1 is Alice's, exercise 2 is global. -/
def sampleSt : DBState :=
  { exercises := [⟨1, some "alice", "Squat", some "legs"⟩, ⟨2, none, "Bench", none⟩],
    workouts := [⟨1, "alice", some "Leg Day", 1736467200000, false, 50, none, 50⟩],
    workoutExercises := [⟨1, 1, 1, 0⟩],
    sets := [⟨1, 1, 1, 5, some 100, some 2⟩],
    nextExerciseId := 3, nextWorkoutId := 2, nextWorkoutExerciseId := 2, nextSetId := 2 }

/-- C10 witness: on `sampleSt`, the row returned for `"alice"` is hers, and
the global row is excluded. -/
theorem getExercisesByUserId_owner_only_witness :
    ((⟨1, some "alice", "Squat", some "legs"⟩ : ExerciseRow) ∈
        getExercisesByUserId "alice" sampleSt ∧
      (⟨1, some "alice", "Squat", some "legs"⟩ : ExerciseRow).userId = some "alice") ∧
    ((⟨2, none, "Bench", none⟩ : ExerciseRow) ∈ sampleSt.exercises ∧
      (⟨2, none, "Bench", none⟩ : ExerciseRow) ∉ getExercisesByUserId "alice" sampleSt) :=
  ⟨⟨by decide,
      (getExercisesByUserId_owner_only "alice" sampleSt).1 _ (by decide)⟩,
    ⟨by decide,
      (getExercisesByUserId_owner_only "alice" sampleSt).2 _ (by decide) rfl⟩⟩

/-! ## C9 -/

/-- C9: with no prior `(uᵢ, n)` rows, the first `createExercise` for `u₁`
with name `n` succeeds, a second create of the same name for `u₁` fails
with the uniqueness-violation signal, and a create of the same name for a
different user `u₂` succeeds. -/
theorem createExercise_unique_per_user (st : DBState) (u₁ u₂ n : String)
    (c₁ c₂ c₃ : Option String)
    (h₁ : ∀ ex ∈ st.exercises, ¬(ex.userId = some u₁ ∧ ex.name = n))
    (h₂ : ∀ ex ∈ st.exercises, ¬(ex.userId = some u₂ ∧ ex.name = n))
    (hne : u₁ ≠ u₂) :
    (createExercise u₁ ⟨n, c₁⟩ st).1 = .ok ⟨st.nextExerciseId, some u₁, n, c₁⟩ ∧
    (createExercise u₁ ⟨n, c₂⟩ (createExercise u₁ ⟨n, c₁⟩ st).2).1 =
      .error "duplicate key value violates unique constraint" ∧
    (createExercise u₂ ⟨n, c₃⟩ (createExercise u₁ ⟨n, c₁⟩ st).2).1 =
      .ok ⟨(createExercise u₁ ⟨n, c₁⟩ st).2.nextExerciseId, some u₂, n, c₃⟩ := by
  have hany₁ : (st.exercises.any fun ex => ex.userId == some u₁ && ex.name == n) = false := by
    rw [Bool.eq_false_iff]
    intro hcon
    obtain ⟨ex, hex, hp⟩ := List.any_eq_true.mp hcon
    simp only [Bool.and_eq_true, beq_iff_eq] at hp
    exact h₁ ex hex ⟨hp.1, hp.2⟩
  have hany₂ : (st.exercises.any fun ex => ex.userId == some u₂ && ex.name == n) = false := by
    rw [Bool.eq_false_iff]
    intro hcon
    obtain ⟨ex, hex, hp⟩ := List.any_eq_true.mp hcon
    simp only [Bool.and_eq_true, beq_iff_eq] at hp
    exact h₂ ex hex ⟨hp.1, hp.2⟩
  refine ⟨?_, ?_, ?_⟩
  · simp [createExercise, hany₁]
  · simp [createExercise, hany₁, List.any_append, hany₂]
  · simp [createExercise, hany₁, List.any_append, hany₂, hne]

/-- C9 witness: on `sampleSt` (which has Alice's "Squat" and a global
"Bench"), creating "Deadlift" for Alice succeeds, creating it again for
Alice fails with the uniqueness violation, and creating it for Bob
succeeds. -/
theorem createExercise_unique_per_user_witness :
    (createExercise "alice" ⟨"Deadlift", none⟩ sampleSt).1 =
      .ok ⟨sampleSt.nextExerciseId, some "alice", "Deadlift", none⟩ ∧
    (createExercise "alice" ⟨"Deadlift", some "back"⟩
        (createExercise "alice" ⟨"Deadlift", none⟩ sampleSt).2).1 =
      .error "duplicate key value violates unique constraint" ∧
    (createExercise "bob" ⟨"Deadlift", none⟩
        (createExercise "alice" ⟨"Deadlift", none⟩ sampleSt).2).1 =
      .ok ⟨(createExercise "alice" ⟨"Deadlift", none⟩ sampleSt).2.nextExerciseId,
        some "bob", "Deadlift", none⟩ :=
  createExercise_unique_per_user sampleSt "alice" "bob" "Deadlift" none (some "back") none
    (by decide) (by decide) (by decide)

/-! ## C8 -/

/-- C8: deleting an exercise referenced by some `workout_exercises` row is
rejected with the restrict-violation signal, and the whole state — in
particular the exercise row and every referencing workout-exercise row —
is unchanged. -/
theorem deleteExerciseRow_restricted (st : DBState) (eid : Nat)
    (we : WorkoutExerciseRow) (hwe : we ∈ st.workoutExercises)
    (heid : we.exerciseId = eid) :
    deleteExerciseRow eid st =
      (.error "update or delete violates foreign key constraint", st) := by
  have hany : (st.workoutExercises.any fun x => x.exerciseId == eid) = true :=
    List.any_eq_true.mpr ⟨we, hwe, by simp [heid]⟩
  simp [deleteExerciseRow, hany]

/-- C8 witness: in `sampleSt`, exercise 1 is referenced by workout-exercise
1, so deleting it fails and leaves the state intact. -/
theorem deleteExerciseRow_restricted_witness :
    (⟨1, 1, 1, 0⟩ : WorkoutExerciseRow) ∈ sampleSt.workoutExercises ∧
    deleteExerciseRow 1 sampleSt =
      (.error "update or delete violates foreign key constraint", sampleSt) :=
  ⟨by decide, deleteExerciseRow_restricted sampleSt 1 ⟨1, 1, 1, 0⟩ (by decide) rfl⟩

/-! ## C2 -/

/-- C2 (failing part, evaluated at the failing input): in `sampleSt`
workout 1 is owned by `"alice"`, so a `deleteWorkout` issued for `"bob"`
matches zero rows — yet the action returns the success signal `.ok ()`
and, of course, deletes nothing.  The claim that every mutation reports a
not-found/empty signal when its predicate matches zero rows is false for
`deleteWorkout`, which has no `.returning()` and returns
`{ success: true }` unconditionally. -/
theorem deleteWorkout_success_despite_zero_match :
    sampleSt.workouts.filter (fun w => w.id == 1 && w.userId == "bob") = [] ∧
    deleteWorkout "bob" 1 sampleSt = (.ok (), sampleSt) := by
  exact ⟨by decide, rfl⟩

/-! ## C4 -/

/-- Database state with an already-completed workout: workout 1, owned by
`"alice"`, has `completedAt = some 100`. -/
def completedSt : DBState :=
  { exercises := [],
    workouts := [⟨1, "alice", none, 0, false, 50, some 100, 60⟩],
    workoutExercises := [], sets := [],
    nextExerciseId := 1, nextWorkoutId := 2, nextWorkoutExerciseId := 1, nextSetId := 1 }

/-- C4 counterexample: workout 1 already has completion timestamp 100, yet
`completeWorkout` at time 200 re-stamps it to 200 — refuting the claim
that a workout that already has a completion timestamp is not re-stamped. -/
theorem completeWorkout_restamps_counterexample :
    (completedSt.workouts.map (fun w => w.completedAt) = [some 100]) ∧
    ((completeWorkout "alice" 1 200 completedSt).2.workouts.map
        (fun w => w.completedAt) = [some 200]) ∧
    (completeWorkout "alice" 1 200 completedSt).1 =
      .ok ⟨1, "alice", none, 0, false, 50, some 200, 200⟩ := by
  exact ⟨by decide, by decide, rfl⟩

/-- C4 (amended): `completeWorkout` stamps `completedAt` to the current
time for every workout matching `(workoutId, userId)` — whether or not it
was already completed — leaves every non-matching workout row and the
other tables unchanged, and when zero rows match it reports the
not-found error and leaves the state unchanged. -/
theorem completeWorkout_stamps_owned (u : String) (wid now : Nat) (st : DBState) :
    (∀ w ∈ st.workouts, w.id = wid → w.userId = u →
        ({ w with completedAt := some now, updatedAt := now } : WorkoutRow) ∈
          (completeWorkout u wid now st).2.workouts) ∧
    (∀ w ∈ st.workouts, ¬(w.id = wid ∧ w.userId = u) →
        w ∈ (completeWorkout u wid now st).2.workouts) ∧
    ((∀ w ∈ st.workouts, ¬(w.id = wid ∧ w.userId = u)) →
        (completeWorkout u wid now st).1 = .error "Workout not found or unauthorized" ∧
        (completeWorkout u wid now st).2 = st) ∧
    (completeWorkout u wid now st).2.workoutExercises = st.workoutExercises ∧
    (completeWorkout u wid now st).2.sets = st.sets ∧
    (completeWorkout u wid now st).2.exercises = st.exercises := by
  refine ⟨?_, ?_, ?_, rfl, rfl, rfl⟩
  · intro w hw hid hu
    have hhit : (w.id == wid && w.userId == u) = true := by simp [hid, hu]
    have h := List.mem_map_of_mem
      (fun v => if v.id == wid && v.userId == u then
        { v with completedAt := some now, updatedAt := now } else v) hw
    simpa [completeWorkout, hhit] using h
  · intro w hw hmiss
    have hhit : (w.id == wid && w.userId == u) = false := by
      rw [Bool.eq_false_iff]
      intro hcon
      simp only [Bool.and_eq_true, beq_iff_eq] at hcon
      exact hmiss ⟨hcon.1, hcon.2⟩
    have h := List.mem_map_of_mem
      (fun v => if v.id == wid && v.userId == u then
        { v with completedAt := some now, updatedAt := now } else v) hw
    simpa [completeWorkout, hhit] using h
  · intro hall
    have hfilter : st.workouts.filter (fun w => w.id == wid && w.userId == u) = [] := by
      refine List.filter_eq_nil_iff.mpr (fun w hw hp => ?_)
      simp only [Bool.and_eq_true, beq_iff_eq] at hp
      exact hall w hw ⟨hp.1, hp.2⟩
    have hmap : (st.workouts.map
        (fun v => if v.id == wid && v.userId == u then
          { v with completedAt := some now, updatedAt := now } else v)) = st.workouts :=
      map_eq_self_of_fix _ _ (fun w hw => by
        have hhit : (w.id == wid && w.userId == u) = false := by
          rw [Bool.eq_false_iff]
          intro hcon
          simp only [Bool.and_eq_true, beq_iff_eq] at hcon
          exact hall w hw ⟨hcon.1, hcon.2⟩
        simp [hhit])
    constructor
    · simp [completeWorkout, hfilter]
    · simp only [completeWorkout, hmap]

/-- C4 witness for the amended theorem: completing Alice's workout 1 in
`sampleSt` at time 777 puts the stamped row in the table. -/
theorem completeWorkout_stamps_owned_witness :
    (⟨1, "alice", some "Leg Day", 1736467200000, false, 50, some 777, 777⟩ : WorkoutRow) ∈
      (completeWorkout "alice" 1 777 sampleSt).2.workouts :=
  (completeWorkout_stamps_owned "alice" 1 777 sampleSt).1
    ⟨1, "alice", some "Leg Day", 1736467200000, false, 50, none, 50⟩ (by decide) rfl rfl

/-! ## C3 -/

/-- Pre-state for the atomicity counterexample: Alice owns exercises 1 and
2, all other tables empty. -/
def atomicSt : DBState :=
  { exercises := [⟨1, some "alice", "Squat", none⟩, ⟨2, some "alice", "Bench", none⟩],
    workouts := [], workoutExercises := [], sets := [],
    nextExerciseId := 3, nextWorkoutId := 1, nextWorkoutExerciseId := 1, nextSetId := 1 }

/-- A create-workout payload with two exercise entries of one set each. -/
def atomicData : CreateWorkoutData :=
  ⟨some "W", 1736467200000,
    [⟨1, 0, [⟨1, 5, some 100, none⟩]⟩, ⟨2, 1, [⟨1, 8, none, none⟩]⟩]⟩

/-- C3 (evaluated at the failing input): when the fourth insert statement
of `createWorkout` — the `workout_exercises` row of the second entry —
fails, the rows committed by the first three statements (the workout row,
the first workout-exercise row and its set row) remain in storage: the
create is not atomic, contradicting the claim that after a failed
sub-insert no row created by the call remains. -/
theorem createWorkout_partial_rows_remain :
    (createWorkoutAborted "alice" atomicData 99 3 atomicSt).workouts =
      [⟨1, "alice", some "W", 1736467200000, false, 99, none, 99⟩] ∧
    (createWorkoutAborted "alice" atomicData 99 3 atomicSt).workoutExercises =
      [⟨1, 1, 1, 0⟩] ∧
    (createWorkoutAborted "alice" atomicData 99 3 atomicSt).sets =
      [⟨1, 1, 1, 5, some 100, none⟩] ∧
    createWorkoutAborted "alice" atomicData 99 3 atomicSt ≠ atomicSt := by
  exact ⟨by decide, by decide, by decide, by decide⟩

/-! ## C1 -/

/-- C1: for a workout `w` owned by user `A`, `getWorkoutByIdAndUserId`
returns `w` for `(A, w.id)`, returns `none` for `(B, w.id)` with `B ≠ A`,
and the result of the mismatched pair is identical to the result for an id
that belongs to no workout at all. -/
theorem getWorkoutByIdAndUserId_auth (st : DBState) (A : String) (w : WorkoutRow)
    (hnodup : (st.workouts.map (fun v => v.id)).Nodup)
    (hw : w ∈ st.workouts) (hA : w.userId = A) :
    getWorkoutByIdAndUserId A w.id st = some w ∧
    (∀ B, B ≠ A → getWorkoutByIdAndUserId B w.id st = none) ∧
    (∀ B wid₀, B ≠ A → (∀ v ∈ st.workouts, v.id ≠ wid₀) →
      getWorkoutByIdAndUserId B w.id st = getWorkoutByIdAndUserId B wid₀ st) := by
  have hmismatch : ∀ B, B ≠ A →
      st.workouts.filter (fun v => v.userId == B && v.id == w.id) = [] := by
    intro B hB
    refine List.filter_eq_nil_iff.mpr (fun v hv hp => ?_)
    simp only [Bool.and_eq_true, beq_iff_eq] at hp
    have hvw : v = w := List.inj_on_of_nodup_map hnodup hv hw hp.2
    exact hB (by rw [← hp.1, hvw, hA])
  refine ⟨?_, ?_, ?_⟩
  · have hfilter : st.workouts.filter (fun v => v.userId == A && v.id == w.id) = [w] :=
      filter_pin_id_eq_single _ _ w hnodup hw (by simp [hA])
        (fun v hp => by
          simp only [Bool.and_eq_true, beq_iff_eq] at hp
          exact hp.2)
    simp [getWorkoutByIdAndUserId, hfilter]
  · intro B hB
    simp [getWorkoutByIdAndUserId, hmismatch B hB]
  · intro B wid₀ hB hnone
    have hfilter₀ : st.workouts.filter (fun v => v.userId == B && v.id == wid₀) = [] := by
      refine List.filter_eq_nil_iff.mpr (fun v hv hp => ?_)
      simp only [Bool.and_eq_true, beq_iff_eq] at hp
      exact hnone v hv hp.2
    simp [getWorkoutByIdAndUserId, hmismatch B hB, hfilter₀]

/-- C1 witness: in `sampleSt`, Alice's workout 1 is returned for Alice,
hidden from Bob, and Bob's mismatched lookup equals the lookup of the
nonexistent id 99. -/
theorem getWorkoutByIdAndUserId_auth_witness :
    getWorkoutByIdAndUserId "alice" 1 sampleSt =
      some ⟨1, "alice", some "Leg Day", 1736467200000, false, 50, none, 50⟩ ∧
    getWorkoutByIdAndUserId "bob" 1 sampleSt = none ∧
    getWorkoutByIdAndUserId "bob" 1 sampleSt = getWorkoutByIdAndUserId "bob" 99 sampleSt := by
  have h := getWorkoutByIdAndUserId_auth sampleSt "alice"
    ⟨1, "alice", some "Leg Day", 1736467200000, false, 50, none, 50⟩
    (by decide) (by decide) rfl
  exact ⟨h.1, h.2.1 "bob" (by decide), h.2.2 "bob" 99 (by decide) (by decide)⟩

/-! ## C5 -/

/-- C5: `updateWorkout` applies partial-update semantics to the matched
workout: the returned and stored row takes each supplied field's value
(an explicitly supplied `null` clears `name`/`completedAt`), keeps every
absent field unchanged (in particular the start timestamp and completion
timestamp when only a name is supplied), stamps `updatedAt`, and leaves
every other workout row and all workout-exercise and set rows unchanged. -/
theorem updateWorkout_partial_semantics (u : String) (inp : UpdateWorkoutInput)
    (now : Nat) (st : DBState) (w : WorkoutRow)
    (hnodup : (st.workouts.map (fun v => v.id)).Nodup)
    (hw : w ∈ st.workouts) (hid : w.id = inp.workoutId) (hu : w.userId = u) :
    (updateWorkout u inp now st).1 = .ok { w with
        name := inp.name.getD w.name,
        startedAt := inp.startedAt.getD w.startedAt,
        completedAt := inp.completedAt.getD w.completedAt,
        updatedAt := now } ∧
    ({ w with
        name := inp.name.getD w.name,
        startedAt := inp.startedAt.getD w.startedAt,
        completedAt := inp.completedAt.getD w.completedAt,
        updatedAt := now } : WorkoutRow) ∈ (updateWorkout u inp now st).2.workouts ∧
    (∀ v ∈ st.workouts, v ≠ w → v ∈ (updateWorkout u inp now st).2.workouts) ∧
    (updateWorkout u inp now st).2.workoutExercises = st.workoutExercises ∧
    (updateWorkout u inp now st).2.sets = st.sets ∧
    (updateWorkout u inp now st).2.exercises = st.exercises := by
  have hhit : (w.id == inp.workoutId && w.userId == u) = true := by simp [hid, hu]
  have hfilter : st.workouts.filter (fun v => v.id == inp.workoutId && v.userId == u) = [w] :=
    filter_pin_id_eq_single _ _ w hnodup hw hhit
      (fun v hp => by
        simp only [Bool.and_eq_true, beq_iff_eq] at hp
        rw [hp.1, hid])
  refine ⟨?_, ?_, ?_, rfl, rfl, rfl⟩
  · simp only [updateWorkout, hfilter, List.head?_cons]
    cases inp.name <;> cases inp.startedAt <;> cases inp.completedAt <;> rfl
  · have h := List.mem_map_of_mem
      (fun v => if v.id == inp.workoutId && v.userId == u then
        { v with
          name := (match inp.name with | some x => x | none => v.name),
          startedAt := (match inp.startedAt with | some x => x | none => v.startedAt),
          completedAt := (match inp.completedAt with | some x => x | none => v.completedAt),
          updatedAt := now } else v) hw
    simp only [hhit, if_true] at h
    have hrec : ({ w with
        name := (match inp.name with | some x => x | none => w.name),
        startedAt := (match inp.startedAt with | some x => x | none => w.startedAt),
        completedAt := (match inp.completedAt with | some x => x | none => w.completedAt),
        updatedAt := now } : WorkoutRow) = { w with
        name := inp.name.getD w.name,
        startedAt := inp.startedAt.getD w.startedAt,
        completedAt := inp.completedAt.getD w.completedAt,
        updatedAt := now } := by
      cases inp.name <;> cases inp.startedAt <;> cases inp.completedAt <;> rfl
    rw [← hrec]
    exact h
  · intro v hv hne
    have hmiss : (v.id == inp.workoutId && v.userId == u) = false := by
      rw [Bool.eq_false_iff]
      intro hcon
      simp only [Bool.and_eq_true, beq_iff_eq] at hcon
      exact hne (List.inj_on_of_nodup_map hnodup hv hw (by rw [hcon.1, hid]))
    have h := List.mem_map_of_mem
      (fun x => if x.id == inp.workoutId && x.userId == u then
        { x with
          name := (match inp.name with | some y => y | none => x.name),
          startedAt := (match inp.startedAt with | some y => y | none => x.startedAt),
          completedAt := (match inp.completedAt with | some y => y | none => x.completedAt),
          updatedAt := now } else x) hv
    simp only [hmiss, Bool.false_eq_true, if_false] at h
    exact h

/-- C5 witness: updating Alice's workout 1 in `sampleSt` with only
`name := "New Name"` changes only the name (and the `updatedAt` stamp):
the start timestamp 50, the `none` completion timestamp, and the
workout-exercise and set tables are all unchanged. -/
theorem updateWorkout_partial_semantics_witness :
    (updateWorkout "alice" ⟨1, some (some "New Name"), none, none⟩ 999 sampleSt).1 =
      .ok ⟨1, "alice", some "New Name", 1736467200000, false, 50, none, 999⟩ ∧
    (⟨1, "alice", some "New Name", 1736467200000, false, 50, none, 999⟩ : WorkoutRow) ∈
      (updateWorkout "alice" ⟨1, some (some "New Name"), none, none⟩ 999 sampleSt).2.workouts ∧
    (updateWorkout "alice" ⟨1, some (some "New Name"), none, none⟩ 999
        sampleSt).2.workoutExercises = sampleSt.workoutExercises ∧
    (updateWorkout "alice" ⟨1, some (some "New Name"), none, none⟩ 999
        sampleSt).2.sets = sampleSt.sets := by
  have h := updateWorkout_partial_semantics "alice" ⟨1, some (some "New Name"), none, none⟩
    999 sampleSt ⟨1, "alice", some "Leg Day", 1736467200000, false, 50, none, 50⟩
    (by decide) (by decide) rfl rfl
  exact ⟨h.1, h.2.1, h.2.2.2.1, h.2.2.2.2.1⟩

/-! ## C7 -/

/-- C7: after a `deleteWorkout` that matches a workout `w` owned by the
caller, no workout row matching `(wid, u)` remains, no workout-exercise
row referencing `wid` remains, and no set row referencing any of the
workout-exercises that belonged to `wid` remains — the declared cascades
remove the whole hierarchy in the same operation. -/
theorem deleteWorkout_cascade (u : String) (wid : Nat) (st : DBState) (w : WorkoutRow)
    (hw : w ∈ st.workouts) (hid : w.id = wid) (hu : w.userId = u) :
    ((deleteWorkout u wid st).2.workouts.filter
        (fun v => v.id == wid && v.userId == u)).length = 0 ∧
    ((deleteWorkout u wid st).2.workoutExercises.filter
        (fun we => we.workoutId == wid)).length = 0 ∧
    ((deleteWorkout u wid st).2.sets.filter (fun s =>
        (st.workoutExercises.filter (fun we => we.workoutId == wid)).any
          (fun we => we.id == s.workoutExerciseId))).length = 0 := by
  have hgonew : (w.id == wid && w.userId == u) = true := by simp [hid, hu]
  have hwidmem : wid ∈
      ((st.workouts.filter (fun v => v.id == wid && v.userId == u)).map (fun v => v.id)) := by
    refine List.mem_map.mpr ⟨w, List.mem_filter.mpr ⟨hw, hgonew⟩, hid⟩
  refine ⟨?_, ?_, ?_⟩
  · rw [List.length_eq_zero]
    refine List.filter_eq_nil_iff.mpr (fun v hv hp => ?_)
    have hkeep := List.of_mem_filter hv
    rw [Bool.not_eq_eq_eq_not, Bool.not_true] at hkeep
    exact absurd hp (by simp [hkeep])
  · rw [List.length_eq_zero]
    refine List.filter_eq_nil_iff.mpr (fun we hwe hp => ?_)
    have hkeep := List.of_mem_filter hwe
    rw [Bool.not_eq_eq_eq_not, Bool.not_true] at hkeep
    have : we.workoutId = wid := by simpa using hp
    rw [this] at hkeep
    have : ((st.workouts.filter (fun v => v.id == wid && v.userId == u)).map
        (fun v => v.id)).contains wid = true := by simpa using hwidmem
    rw [this] at hkeep
    exact absurd hkeep (by decide)
  · rw [List.length_eq_zero]
    refine List.filter_eq_nil_iff.mpr (fun s hs hp => ?_)
    have hkeep := List.of_mem_filter hs
    rw [Bool.not_eq_eq_eq_not, Bool.not_true] at hkeep
    obtain ⟨we, hwe, hweid⟩ := List.any_eq_true.mp hp
    have hwe' : we ∈ st.workoutExercises := List.mem_of_mem_filter hwe
    have hwewid : we.workoutId = wid := by simpa using List.of_mem_filter hwe
    have hweid' : we.id = s.workoutExerciseId := by simpa using hweid
    have hcontains : ((st.workouts.filter
        (fun v => v.id == wid && v.userId == u)).map (fun v => v.id)).contains
          we.workoutId = true := by
      rw [hwewid]; simpa using hwidmem
    have hwemem : we ∈ st.workoutExercises.filter (fun x =>
        ((st.workouts.filter (fun v => v.id == wid && v.userId == u)).map
          (fun v => v.id)).contains x.workoutId) :=
      List.mem_filter.mpr ⟨hwe', hcontains⟩
    have hsmem : s.workoutExerciseId ∈ ((st.workoutExercises.filter (fun x =>
        ((st.workouts.filter (fun v => v.id == wid && v.userId == u)).map
          (fun v => v.id)).contains x.workoutId)).map (fun x => x.id)) :=
      List.mem_map.mpr ⟨we, hwemem, hweid'⟩
    have : ((st.workoutExercises.filter (fun x =>
        ((st.workouts.filter (fun v => v.id == wid && v.userId == u)).map
          (fun v => v.id)).contains x.workoutId)).map (fun x => x.id)).contains
            s.workoutExerciseId = true := by simpa using hsmem
    rw [this] at hkeep
    exact absurd hkeep (by decide)

/-- C7 witness: deleting Alice's workout 1 from `sampleSt` leaves zero
matching workout rows, zero workout-exercise rows for workout 1, and zero
set rows under its workout-exercises. -/
theorem deleteWorkout_cascade_witness :
    ((deleteWorkout "alice" 1 sampleSt).2.workouts.filter
        (fun v => v.id == 1 && v.userId == "alice")).length = 0 ∧
    ((deleteWorkout "alice" 1 sampleSt).2.workoutExercises.filter
        (fun we => we.workoutId == 1)).length = 0 ∧
    ((deleteWorkout "alice" 1 sampleSt).2.sets.filter (fun s =>
        (sampleSt.workoutExercises.filter (fun we => we.workoutId == 1)).any
          (fun we => we.id == s.workoutExerciseId))).length = 0 :=
  deleteWorkout_cascade "alice" 1 sampleSt
    ⟨1, "alice", some "Leg Day", 1736467200000, false, 50, none, 50⟩
    (by decide) rfl rfl

/-! ## C6: characterizing the state after `createWorkout` -/

/-- The workout-exercise rows inserted by `createWorkout` for the entries
`es` under workout `wid`, serial ids starting at `n`. -/
def newWERows (wid n : Nat) : List ExerciseEntryInput → List WorkoutExerciseRow
  | [] => []
  | e :: rest => ⟨n, wid, e.exerciseId, e.order⟩ :: newWERows wid (n + 1) rest

/-- The set rows inserted for one entry's submitted sets under
workout-exercise `weid`, serial ids starting at `n`. -/
def setRowsFor (n weid : Nat) : List SetInput → List SetRow
  | [] => []
  | s :: rest => ⟨n, weid, s.setNumber, s.reps, s.weight, s.rir⟩ :: setRowsFor (n + 1) weid rest

/-- All set rows inserted for the entries `es`: set serial ids start at
`n`, workout-exercise serial ids at `m`. -/
def newSetRows (n m : Nat) : List ExerciseEntryInput → List SetRow
  | [] => []
  | e :: rest => setRowsFor n m e.sets ++ newSetRows (n + e.sets.length) (m + 1) rest

/-- Total number of submitted sets across the entries. -/
def totalSets : List ExerciseEntryInput → Nat
  | [] => 0
  | e :: rest => e.sets.length + totalSets rest

theorem setRowsFor_length (n weid : Nat) (ss : List SetInput) :
    (setRowsFor n weid ss).length = ss.length := by
  induction ss generalizing n with
  | nil => rfl
  | cons s rest ih => simp [setRowsFor, ih]

theorem insertSets_spec (weid : Nat) (ss : List SetInput) (st : DBState) :
    insertSets weid ss st = { st with
      sets := st.sets ++ setRowsFor st.nextSetId weid ss,
      nextSetId := st.nextSetId + ss.length } := by
  induction ss generalizing st with
  | nil => simp [insertSets, setRowsFor]
  | cons s rest ih =>
      rw [insertSets, ih]
      simp only [setRowsFor, List.cons_append, List.append_assoc, List.singleton_append,
        List.nil_append, List.length_cons]
      congr 1
      omega

theorem insertWorkoutExercises_spec (wid : Nat) (es : List ExerciseEntryInput)
    (st : DBState) :
    insertWorkoutExercises wid es st = { st with
      workoutExercises :=
        st.workoutExercises ++ newWERows wid st.nextWorkoutExerciseId es,
      sets := st.sets ++ newSetRows st.nextSetId st.nextWorkoutExerciseId es,
      nextWorkoutExerciseId := st.nextWorkoutExerciseId + es.length,
      nextSetId := st.nextSetId + totalSets es } := by
  induction es generalizing st with
  | nil => simp [insertWorkoutExercises, newWERows, newSetRows, totalSets]
  | cons e rest ih =>
      rw [insertWorkoutExercises, insertSets_spec, ih]
      simp only [newWERows, newSetRows, totalSets, List.cons_append, List.append_assoc,
        List.singleton_append, List.nil_append, List.length_cons]
      congr 1 <;> omega

/-- The full effect of `createWorkout`: the returned row and the new state
in closed form. -/
theorem createWorkout_spec (u : String) (data : CreateWorkoutData) (now : Nat)
    (st : DBState) :
    createWorkout u data now st =
      (⟨st.nextWorkoutId, u, data.name, data.date, false, now, none, now⟩,
        { st with
          workouts := st.workouts ++
            [⟨st.nextWorkoutId, u, data.name, data.date, false, now, none, now⟩],
          workoutExercises := st.workoutExercises ++
            newWERows st.nextWorkoutId st.nextWorkoutExerciseId data.exercises,
          sets := st.sets ++ newSetRows st.nextSetId st.nextWorkoutExerciseId data.exercises,
          nextWorkoutId := st.nextWorkoutId + 1,
          nextWorkoutExerciseId := st.nextWorkoutExerciseId + data.exercises.length,
          nextSetId := st.nextSetId + totalSets data.exercises }) := by
  rw [createWorkout, insertWorkoutExercises_spec]

theorem mem_newWERows {wid n : Nat} {es : List ExerciseEntryInput}
    {we : WorkoutExerciseRow} (h : we ∈ newWERows wid n es) :
    we.workoutId = wid ∧ n ≤ we.id ∧ ∃ e ∈ es, we.exerciseId = e.exerciseId := by
  induction es generalizing n with
  | nil => exact absurd h (List.not_mem_nil we)
  | cons e rest ih =>
      rcases List.mem_cons.mp h with h | h
      · subst h
        exact ⟨rfl, Nat.le_refl n, e, List.mem_cons_self e rest, rfl⟩
      · obtain ⟨h1, h2, e', he', h3⟩ := ih h
        exact ⟨h1, Nat.le_of_succ_le h2, e', List.mem_cons_of_mem e he', h3⟩

theorem mem_setRowsFor {n weid : Nat} {ss : List SetInput} {s : SetRow}
    (h : s ∈ setRowsFor n weid ss) : s.workoutExerciseId = weid := by
  induction ss generalizing n with
  | nil => exact absurd h (List.not_mem_nil s)
  | cons a rest ih =>
      rcases List.mem_cons.mp h with h | h
      · subst h; rfl
      · exact ih h

theorem mem_newSetRows {n m : Nat} {es : List ExerciseEntryInput} {s : SetRow}
    (h : s ∈ newSetRows n m es) : m ≤ s.workoutExerciseId := by
  induction es generalizing n m with
  | nil => exact absurd h (List.not_mem_nil s)
  | cons e rest ih =>
      rcases List.mem_append.mp h with h | h
      · exact Nat.le_of_eq (mem_setRowsFor h).symm
      · exact Nat.le_of_succ_le (ih h)

theorem setRowsFor_proj (n weid : Nat) (ss : List SetInput) :
    (setRowsFor n weid ss).map (fun s => (s.setNumber, s.reps, s.weight, s.rir)) =
      ss.map (fun s => (s.setNumber, s.reps, s.weight, s.rir)) := by
  induction ss generalizing n with
  | nil => rfl
  | cons a rest ih => simp [setRowsFor, ih]

theorem setRowsFor_setNumbers (n weid : Nat) (ss : List SetInput) :
    (setRowsFor n weid ss).map (fun s => s.setNumber) = ss.map (fun s => s.setNumber) := by
  induction ss generalizing n with
  | nil => rfl
  | cons a rest ih => simp [setRowsFor, ih]

/-- The inner join produces exactly one output row per workout-exercise row
when each referenced exercise id occurs exactly once in the catalog, and
that row keeps the workout-exercise's id, exercise id and order: any map
over those three fields factors through the join. -/
theorem join_map {β : Type} (exs : List ExerciseRow) (l : List WorkoutExerciseRow)
    (hone : ∀ we ∈ l, exs.countP (fun ex => we.exerciseId == ex.id) = 1)
    (f : Nat → Nat → Nat → β) :
    (l.flatMap (fun we => (exs.filter (fun ex => we.exerciseId == ex.id)).map
        (fun ex => (⟨we.id, we.order, ex.id, ex.name, ex.category⟩ : JoinedExerciseRow)))).map
      (fun j => f j.id j.exerciseId j.order) =
    l.map (fun we => f we.id we.exerciseId we.order) := by
  induction l with
  | nil => rfl
  | cons we rest ih =>
      have hlen : (exs.filter (fun ex => we.exerciseId == ex.id)).length = 1 := by
        rw [← List.countP_eq_length_filter]
        exact hone we (List.mem_cons_self we rest)
      obtain ⟨ex, hex⟩ := List.length_eq_one.mp hlen
      have hexid : ex.id = we.exerciseId := by
        have hmem : ex ∈ exs.filter (fun x => we.exerciseId == x.id) := by
          rw [hex]; exact List.mem_cons_self ex []
        have := List.of_mem_filter hmem
        exact (eq_of_beq this).symm
      rw [List.flatMap_cons, List.map_append, hex,
        ih (fun x hx => hone x (List.mem_cons_of_mem we hx))]
      simp only [List.map_cons, List.map_nil, List.singleton_append]
      rw [hexid]

/-- Key alignment lemma: reading back the inserted workout-exercise rows,
each with its sets from the post-insert `sets` table (pre-existing rows
reference only earlier workout-exercise ids), reproduces the submitted
entries field by field, the sets of each entry in submitted order when it
was sorted by set number. -/
theorem weViews_align (wid : Nat) (es : List ExerciseEntryInput)
    (oldSets : List SetRow) (nset n0 : Nat)
    (hold : ∀ s ∈ oldSets, s.workoutExerciseId < n0)
    (hsorted : ∀ e ∈ es, e.sets.Pairwise (fun a b => a.setNumber ≤ b.setNumber)) :
    (newWERows wid n0 es).map (fun we => (we.exerciseId, we.order,
        ((List.insertionSort (fun (a b : SetRow) => a.setNumber ≤ b.setNumber)
            ((oldSets ++ newSetRows nset n0 es).filter
              (fun s => s.workoutExerciseId == we.id))).map
          (fun s => (s.setNumber, s.reps, s.weight, s.rir))))) =
      es.map (fun e => (e.exerciseId, e.order,
        e.sets.map (fun s => (s.setNumber, s.reps, s.weight, s.rir)))) := by
  induction es generalizing oldSets nset n0 with
  | nil => rfl
  | cons e rest ih =>
      rw [newWERows, List.map_cons]
      have htable : oldSets ++ newSetRows nset n0 (e :: rest) =
          (oldSets ++ setRowsFor nset n0 e.sets) ++
            newSetRows (nset + e.sets.length) (n0 + 1) rest := by
        rw [newSetRows, List.append_assoc]
      have hheadfilter : ((oldSets ++ newSetRows nset n0 (e :: rest)).filter
          (fun s => s.workoutExerciseId == n0)) = setRowsFor nset n0 e.sets := by
        rw [newSetRows, List.filter_append, List.filter_append]
        have h1 : oldSets.filter (fun s => s.workoutExerciseId == n0) = [] := by
          refine List.filter_eq_nil_iff.mpr (fun s hs hp => ?_)
          have := hold s hs
          have hpe : s.workoutExerciseId = n0 := by simpa using hp
          omega
        have h2 : (setRowsFor nset n0 e.sets).filter
            (fun s => s.workoutExerciseId == n0) = setRowsFor nset n0 e.sets := by
          refine List.filter_eq_self.mpr (fun s hs => ?_)
          simp [mem_setRowsFor hs]
        have h3 : (newSetRows (nset + e.sets.length) (n0 + 1) rest).filter
            (fun s => s.workoutExerciseId == n0) = [] := by
          refine List.filter_eq_nil_iff.mpr (fun s hs hp => ?_)
          have := mem_newSetRows hs
          have hpe : s.workoutExerciseId = n0 := by simpa using hp
          omega
        rw [h1, h2, h3, List.nil_append, List.append_nil]
      have hheadsorted : (setRowsFor nset n0 e.sets).Pairwise
          (fun (a b : SetRow) => a.setNumber ≤ b.setNumber) := by
        have he := hsorted e (List.mem_cons_self e rest)
        have hnum := setRowsFor_setNumbers nset n0 e.sets
        have : ((setRowsFor nset n0 e.sets).map (fun s => s.setNumber)).Pairwise
            (fun a b => a ≤ b) := by
          rw [hnum]
          exact (List.pairwise_map).mpr he
        exact (List.pairwise_map).mp this
      have hhead : ((List.insertionSort (fun (a b : SetRow) => a.setNumber ≤ b.setNumber)
          ((oldSets ++ newSetRows nset n0 (e :: rest)).filter
            (fun s => s.workoutExerciseId == n0))).map
          (fun s => (s.setNumber, s.reps, s.weight, s.rir))) =
          e.sets.map (fun s => (s.setNumber, s.reps, s.weight, s.rir)) := by
        rw [hheadfilter, List.Sorted.insertionSort_eq hheadsorted, setRowsFor_proj]
      rw [hhead]
      have hrest := ih (oldSets ++ setRowsFor nset n0 e.sets) (nset + e.sets.length) (n0 + 1)
        (fun s hs => by
          rcases List.mem_append.mp hs with h | h
          · exact Nat.lt_succ_of_lt (hold s h)
          · rw [mem_setRowsFor h]; exact Nat.lt_succ_self n0)
        (fun e' he' => hsorted e' (List.mem_cons_of_mem e he'))
      rw [htable, hrest]
      rfl

theorem newWERows_orders (wid n : Nat) (es : List ExerciseEntryInput) :
    (newWERows wid n es).map (fun we => we.order) = es.map (fun e => e.order) := by
  induction es generalizing n with
  | nil => rfl
  | cons e rest ih => simp [newWERows, ih]

/-- Reading back the per-workout detail of a freshly created workout: on
any state whose tables extend the pre-create tables with the rows of
`createWorkout` (and whose pre-existing rows reference only earlier ids),
the assembled exercise views reproduce the submitted entries field by
field in submitted order, and come out sorted by `order`. -/
theorem exerciseViewsFor_roundtrip (st st₂ : DBState) (es : List ExerciseEntryInput)
    (wid n0 nset : Nat)
    (hwe2 : st₂.workoutExercises = st.workoutExercises ++ newWERows wid n0 es)
    (hex2 : st₂.exercises = st.exercises)
    (hsets2 : st₂.sets = st.sets ++ newSetRows nset n0 es)
    (hWElt : ∀ we ∈ st.workoutExercises, we.workoutId < wid)
    (hSetlt : ∀ s ∈ st.sets, s.workoutExerciseId < n0)
    (horder : es.Pairwise (fun a b => a.order ≤ b.order))
    (hsorted : ∀ e ∈ es, e.sets.Pairwise (fun a b => a.setNumber ≤ b.setNumber))
    (hcat : ∀ e ∈ es, st.exercises.countP (fun ex => e.exerciseId == ex.id) = 1) :
    (exerciseViewsFor st₂ wid).map (fun x => (x.exerciseId, x.order,
        x.sets.map (fun s => (s.setNumber, s.reps, s.weight, s.rir)))) =
      es.map (fun e => (e.exerciseId, e.order,
        e.sets.map (fun s => (s.setNumber, s.reps, s.weight, s.rir)))) ∧
    (exerciseViewsFor st₂ wid).Pairwise (fun a b => a.order ≤ b.order) := by
  have hwesfilter : st₂.workoutExercises.filter (fun we => we.workoutId == wid) =
      newWERows wid n0 es := by
    rw [hwe2, List.filter_append]
    have h1 : st.workoutExercises.filter (fun we => we.workoutId == wid) = [] := by
      refine List.filter_eq_nil_iff.mpr (fun we hwe hp => ?_)
      have h := hWElt we hwe
      have he : we.workoutId = wid := eq_of_beq hp
      omega
    have h2 : (newWERows wid n0 es).filter (fun we => we.workoutId == wid) =
        newWERows wid n0 es := by
      refine List.filter_eq_self.mpr (fun we hwe => ?_)
      simp [(mem_newWERows hwe).1]
    rw [h1, h2, List.nil_append]
  have hone : ∀ we ∈ newWERows wid n0 es,
      st.exercises.countP (fun ex => we.exerciseId == ex.id) = 1 := by
    intro we hwe
    obtain ⟨-, -, e, he, heq⟩ := mem_newWERows hwe
    rw [heq]
    exact hcat e he
  have hjoined : joinedExercisesFor st₂ wid = (newWERows wid n0 es).flatMap
      (fun we => (st.exercises.filter (fun ex => we.exerciseId == ex.id)).map
        (fun ex => ⟨we.id, we.order, ex.id, ex.name, ex.category⟩)) := by
    rw [joinedExercisesFor, hwesfilter, hex2]
  have horders : (joinedExercisesFor st₂ wid).map (fun j => j.order) =
      es.map (fun e => e.order) := by
    rw [hjoined]
    exact (join_map st.exercises (newWERows wid n0 es) hone (fun a b c => c)).trans
      (newWERows_orders wid n0 es)
  have hsortedJ : (joinedExercisesFor st₂ wid).Pairwise
      (fun a b => a.order ≤ b.order) := by
    have hp : ((joinedExercisesFor st₂ wid).map (fun j => j.order)).Pairwise
        (fun a b => a ≤ b) := by
      rw [horders]
      exact (List.pairwise_map).mpr horder
    exact (List.pairwise_map).mp hp
  have hEV : exerciseViewsFor st₂ wid = (joinedExercisesFor st₂ wid).map
      (fun j => ⟨j.id, j.exerciseId, j.exerciseName, j.exerciseCategory, j.order,
        setViewsFor st₂ j.id⟩) := by
    rw [exerciseViewsFor, List.Sorted.insertionSort_eq hsortedJ]
  refine ⟨?_, ?_⟩
  · rw [hEV, List.map_map]
    have hcomp : ∀ j ∈ joinedExercisesFor st₂ wid,
        ((fun x : ExerciseView => (x.exerciseId, x.order,
            x.sets.map (fun s => (s.setNumber, s.reps, s.weight, s.rir)))) ∘
          (fun j : JoinedExerciseRow =>
            (⟨j.id, j.exerciseId, j.exerciseName, j.exerciseCategory, j.order,
              setViewsFor st₂ j.id⟩ : ExerciseView))) j =
        (fun j : JoinedExerciseRow => (j.exerciseId, j.order,
          ((List.insertionSort (fun (a b : SetRow) => a.setNumber ≤ b.setNumber)
              ((st.sets ++ newSetRows nset n0 es).filter
                (fun s => s.workoutExerciseId == j.id))).map
            (fun s => (s.setNumber, s.reps, s.weight, s.rir))))) j := by
      intro j _
      simp only [Function.comp_apply, setViewsFor, List.map_map, hsets2]
      rfl
    rw [List.map_congr_left hcomp, hjoined]
    exact (join_map st.exercises (newWERows wid n0 es) hone
        (fun a b c => (b, c,
          ((List.insertionSort (fun (x y : SetRow) => x.setNumber ≤ y.setNumber)
              ((st.sets ++ newSetRows nset n0 es).filter
                (fun s => s.workoutExerciseId == a))).map
            (fun s => (s.setNumber, s.reps, s.weight, s.rir)))))).trans
      (weViews_align wid es st.sets nset n0 hSetlt hsorted)
  · rw [hEV]
    exact List.Pairwise.map _ (fun a b hab => hab) hsortedJ

/-- C6: creating a workout and reading it back through the date-scoped
read returns, for the owning user, an entry whose exercises reproduce the
submitted entries field by field (exercise reference, order, and each
set's number, reps, weight and RIR), sorted ascending by `order` with the
sets of each exercise sorted ascending by `setNumber`, together with the
submitted workout name and date.  Hypotheses: the state is well-formed,
the date is not the last millisecond of its day (the read's exclusive
upper bound), the submission lists exercises by ascending order and sets
by ascending set number, and each referenced exercise id occurs exactly
once in the catalog. -/
theorem createWorkout_roundtrip (u : String) (data : CreateWorkoutData) (now : Nat)
    (st : DBState) (hwf : WellFormed st)
    (hdate : data.date % msPerDay < msPerDay - 1)
    (horder : data.exercises.Pairwise (fun a b => a.order ≤ b.order))
    (hsorted : ∀ e ∈ data.exercises,
      e.sets.Pairwise (fun a b => a.setNumber ≤ b.setNumber))
    (hcat : ∀ e ∈ data.exercises,
      st.exercises.countP (fun ex => e.exerciseId == ex.id) = 1) :
    ∃ entry ∈ getWorkoutsByUserIdAndDate u data.date (createWorkout u data now st).2,
      entry.id = (createWorkout u data now st).1.id ∧
      entry.name = data.name ∧
      entry.date = data.date ∧
      entry.exercises.map (fun x => (x.exerciseId, x.order,
          x.sets.map (fun s => (s.setNumber, s.reps, s.weight, s.rir)))) =
        data.exercises.map (fun e => (e.exerciseId, e.order,
          e.sets.map (fun s => (s.setNumber, s.reps, s.weight, s.rir)))) ∧
      entry.exercises.Pairwise (fun a b => a.order ≤ b.order) ∧
      ∀ x ∈ entry.exercises,
        x.sets.Pairwise (fun a b => a.setNumber ≤ b.setNumber) := by
  have hspec := createWorkout_spec u data now st
  have hwe2 : (createWorkout u data now st).2.workoutExercises =
      st.workoutExercises ++
        newWERows st.nextWorkoutId st.nextWorkoutExerciseId data.exercises := by
    rw [hspec]
  have hex2 : (createWorkout u data now st).2.exercises = st.exercises := by
    rw [hspec]
  have hsets2 : (createWorkout u data now st).2.sets =
      st.sets ++ newSetRows st.nextSetId st.nextWorkoutExerciseId data.exercises := by
    rw [hspec]
  have hw2 : (createWorkout u data now st).2.workouts = st.workouts ++
      [⟨st.nextWorkoutId, u, data.name, data.date, false, now, none, now⟩] := by
    rw [hspec]
  obtain ⟨hEVproj, hEVsorted⟩ := exerciseViewsFor_roundtrip st
    (createWorkout u data now st).2 data.exercises st.nextWorkoutId
    st.nextWorkoutExerciseId st.nextSetId hwe2 hex2 hsets2
    hwf.weWorkoutIdsLt hwf.setWeIdsLt horder hsorted hcat
  have hpass : ((⟨st.nextWorkoutId, u, data.name, data.date, false, now, none, now⟩ :
        WorkoutRow).userId == u &&
      (⟨st.nextWorkoutId, u, data.name, data.date, false, now, none, now⟩ :
        WorkoutRow).isTemplate == false &&
      decide (startOfDayMs data.date ≤
        (⟨st.nextWorkoutId, u, data.name, data.date, false, now, none, now⟩ :
          WorkoutRow).date) &&
      decide ((⟨st.nextWorkoutId, u, data.name, data.date, false, now, none, now⟩ :
          WorkoutRow).date < endOfDayMs data.date)) = true := by
    have hle : startOfDayMs data.date ≤ data.date := Nat.sub_le _ _
    have hlt : data.date < endOfDayMs data.date := by
      have hml : data.date % msPerDay ≤ data.date := Nat.mod_le _ _
      simp only [endOfDayMs, startOfDayMs]
      omega
    simp [hle, hlt]
  have hmemf : (⟨st.nextWorkoutId, u, data.name, data.date, false, now, none, now⟩ :
      WorkoutRow) ∈ (createWorkout u data now st).2.workouts.filter
        (fun w => w.userId == u && w.isTemplate == false &&
          decide (startOfDayMs data.date ≤ w.date) &&
          decide (w.date < endOfDayMs data.date)) :=
    List.mem_filter.mpr
      ⟨by rw [hw2]; exact List.mem_append_right _ (List.mem_singleton_self _), hpass⟩
  rw [getWorkoutsByUserIdAndDate]
  refine ⟨_, List.mem_map_of_mem _
    ((List.mem_insertionSort (fun a b => b.date ≤ a.date)).mpr hmemf),
    rfl, rfl, rfl, hEVproj, hEVsorted, ?_⟩
  intro x hx
  have hproj : (x.exerciseId, x.order,
      x.sets.map (fun s => (s.setNumber, s.reps, s.weight, s.rir))) ∈
        data.exercises.map (fun e => (e.exerciseId, e.order,
          e.sets.map (fun s => (s.setNumber, s.reps, s.weight, s.rir)))) := by
    rw [← hEVproj]
    exact List.mem_map_of_mem _ hx
  obtain ⟨e, he, heq⟩ := List.mem_map.mp hproj
  have h3 : e.sets.map (fun s => (s.setNumber, s.reps, s.weight, s.rir)) =
      x.sets.map (fun s => (s.setNumber, s.reps, s.weight, s.rir)) :=
    congrArg (fun t : Nat × Nat × List (Nat × Nat × Option Nat × Option Nat) => t.2.2) heq
  have h4 := congrArg (List.map (fun t : Nat × Nat × Option Nat × Option Nat => t.1)) h3
  rw [List.map_map, List.map_map] at h4
  have h5 : e.sets.map (fun s => s.setNumber) = x.sets.map (fun s => s.setNumber) := h4
  have hp : (x.sets.map (fun s => s.setNumber)).Pairwise (fun a b => a ≤ b) := by
    rw [← h5]
    exact (List.pairwise_map).mpr (hsorted e he)
  exact (List.pairwise_map).mp hp

/-- A concrete two-exercise submission (two sets, then one) for the C6
witness. -/
def roundData : CreateWorkoutData :=
  ⟨some "Push Day", 1736467200000,
    [⟨1, 0, [⟨1, 5, some 100, some 2⟩, ⟨2, 5, some 102, none⟩]⟩,
      ⟨2, 1, [⟨1, 8, none, none⟩]⟩]⟩

/-- C6 witness: the round-trip theorem applied to `roundData` on
`sampleSt`. -/
theorem createWorkout_roundtrip_witness :
    ∃ entry ∈ getWorkoutsByUserIdAndDate "alice" 1736467200000
        (createWorkout "alice" roundData 99 sampleSt).2,
      entry.id = (createWorkout "alice" roundData 99 sampleSt).1.id ∧
      entry.name = roundData.name ∧
      entry.date = roundData.date ∧
      entry.exercises.map (fun x => (x.exerciseId, x.order,
          x.sets.map (fun s => (s.setNumber, s.reps, s.weight, s.rir)))) =
        roundData.exercises.map (fun e => (e.exerciseId, e.order,
          e.sets.map (fun s => (s.setNumber, s.reps, s.weight, s.rir)))) ∧
      entry.exercises.Pairwise (fun a b => a.order ≤ b.order) ∧
      ∀ x ∈ entry.exercises,
        x.sets.Pairwise (fun a b => a.setNumber ≤ b.setNumber) :=
  createWorkout_roundtrip "alice" roundData 99 sampleSt
    ⟨by decide, by decide, by decide, by decide, by decide, by decide⟩
    (by decide) (by decide) (by decide) (by decide)
